import Mathlib

/-!
Shallow embedding of the job-orchestration core of `backend/main.py`
(OurTube).  Python floats are modelled by `ℚ`, Python ints by `Int`,
timestamps (`datetime`) by `Nat`, optional values (`None`) by `Option`.
The truthiness of Python `x or y` on optional integers is modelled
explicitly (`pyOrInt`).
-/

namespace OurTube

/-- Job status strings used by `main.py`
(`queued, scheduled, downloading, processing, completed, failed, cancelled, retrying`). -/
inductive Status
  | queued
  | scheduled
  | downloading
  | processing
  | completed
  | failed
  | cancelled
  | retrying
deriving DecidableEq

/-- Model of the Python expression `a or d` for `a : Optional[int]`:
`None` and `0` are falsy, any other integer is returned unchanged. -/
def pyOrInt (a : Option Int) (d : Int) : Int :=
  match a with
  | none => d
  | some x => if x = 0 then d else x

/-- Model of the `DownloadStatus` pydantic record of `main.py`
(fields kept with their source names; `datetime` fields are `Nat`
timestamps, `float` is `ℚ`). -/
structure DownloadStatus where
  id : String
  url : String
  status : Status
  progress : ℚ
  filename : Option String
  error : Option String
  speed : Option String
  eta : Option String
  created_at : Nat
  completed_at : Option Nat
  scheduled_time : Option Nat
  retry_count : Option Int
  max_retries : Option Int
deriving DecidableEq

/-- Model of the relevant fields of the `DownloadRequest` body
(`url`, `scheduled_time`, `auto_retry`, `max_retries`; the media-format
options do not participate in any orchestration claim). -/
structure DownloadRequest where
  url : String
  scheduled_time : Option String
  auto_retry : Option Bool
  max_retries : Option Int
deriving DecidableEq

/-- Progress sample dictionary passed by the Extractor to
`DownloadProgress.__call__` (the `status == 'downloading'` case):
`d.get('total_bytes')`, `d.get('total_bytes_estimate')`,
`d.get('downloaded_bytes', 0)`, `d.get('fragment_index', 0)`,
`d.get('fragment_count', 0)`. -/
structure ProgressSample where
  total_bytes : Option Int
  total_bytes_estimate : Option Int
  downloaded_bytes : Option Int
  fragment_index : Option Int
  fragment_count : Option Int
deriving DecidableEq

/-- Source line `total = d.get('total_bytes') or d.get('total_bytes_estimate') or 0`. -/
def totalOf (d : ProgressSample) : Int :=
  pyOrInt d.total_bytes (pyOrInt d.total_bytes_estimate 0)

/-- Source line `downloaded = d.get('downloaded_bytes', 0)`. -/
def downloadedOf (d : ProgressSample) : Int :=
  d.downloaded_bytes.getD 0

/-- Source line `fragment_index = d.get('fragment_index', 0)`. -/
def fragIdxOf (d : ProgressSample) : Int :=
  d.fragment_index.getD 0

/-- Source line `fragment_count = d.get('fragment_count', 0)`. -/
def fragCntOf (d : ProgressSample) : Int :=
  d.fragment_count.getD 0

/-- The progress-percentage computation of `DownloadProgress.__call__`
(`main.py` lines 354-369): `min(100.0, downloaded / total * 100)` when
`total > 0 and downloaded >= 0`, else the fragment fallback
`fragment_index / fragment_count * 100` (no clamp in the source), else `0`. -/
def computeProgress (d : ProgressSample) : ℚ :=
  if 0 < totalOf d ∧ 0 ≤ downloadedOf d then
    min 100 ((downloadedOf d : ℚ) / (totalOf d : ℚ) * 100)
  else if 0 < fragCntOf d then
    (fragIdxOf d : ℚ) / (fragCntOf d : ℚ) * 100
  else 0

/-- Outcome of the `except Exception` handler of `process_download`:
`skipped` when the cancelled check suppressed any failure transition,
`retried` when a retry was scheduled, `failedOut` when the job was
marked failed. -/
inductive FailureOutcome
  | skipped
  | retried
  | failedOut
deriving DecidableEq

/-- The `except Exception as e` handler of `process_download`
(`main.py` lines 688-720): first checks
`downloads[download_id].status != 'cancelled'`; then, with
`current_retry = retry_count or 0` and `max_retries = max_retries or 0`,
retries when `request.auto_retry and current_retry < max_retries`
(incrementing `retry_count` and setting status `retrying`), otherwise
sets status `failed` and records the error string.  The job record is
returned together with the branch taken. -/
def handleFailure (auto_retry : Option Bool) (err : String) (j : DownloadStatus) :
    DownloadStatus × FailureOutcome :=
  if j.status = Status.cancelled then
    (j, FailureOutcome.skipped)
  else
    let current_retry : Int := j.retry_count.getD 0
    let max_retries : Int := j.max_retries.getD 0
    if auto_retry = some true ∧ current_retry < max_retries then
      ({ j with retry_count := some (current_retry + 1), status := Status.retrying },
        FailureOutcome.retried)
    else
      ({ j with status := Status.failed, error := some err }, FailureOutcome.failedOut)

/-- Job mutation performed by `process_download` when a run is admitted
(`main.py` line 642): `downloads[download_id].status = "downloading"`. -/
def startJob (j : DownloadStatus) : DownloadStatus :=
  { j with status := Status.downloading }

end OurTube

namespace OurTube

/-- Baseline job record used by concrete witnesses and counterexamples
(the fields a fresh `create_download` job would carry). -/
def jobBase : DownloadStatus :=
  { id := "j1", url := "u", status := Status.queued, progress := 0,
    filename := none, error := none, speed := none, eta := none,
    created_at := 0, completed_at := none, scheduled_time := none,
    retry_count := some 0, max_retries := some 3 }

/-- C1: a job whose status is already `cancelled` when the execution
failure is handled is left completely unchanged by the failure handler:
the status stays `cancelled`, it is never set to `failed` or `retrying`,
the error field is not written, and the handler checks the cancelled
status before applying any failure transition. -/
theorem c1_cancelled_wins (auto_retry : Option Bool) (err : String)
    (j : DownloadStatus) (h : j.status = Status.cancelled) :
    handleFailure auto_retry err j = (j, FailureOutcome.skipped) := by
  simp [handleFailure, h]

/-- Witness for C1 at a concrete cancelled job. -/
theorem c1_cancelled_wins_witness :
    ({ jobBase with status := Status.cancelled } : DownloadStatus).status
        = Status.cancelled ∧
    handleFailure (some true) "boom" { jobBase with status := Status.cancelled }
      = ({ jobBase with status := Status.cancelled }, FailureOutcome.skipped) :=
  ⟨rfl, c1_cancelled_wins (some true) "boom" _ rfl⟩

/-- Concrete Extractor sample with no byte totals and
`fragment_index = 5 > fragment_count = 4`. -/
def fragSample : ProgressSample :=
  { total_bytes := none, total_bytes_estimate := none,
    downloaded_bytes := some 0, fragment_index := some 5, fragment_count := some 4 }

/-- Counterexample to C4: on a fragment-only sample with
`fragment_index = 5` and `fragment_count = 4` the source computes
`(5 / 4) * 100 = 125` and stores it without clamping, so the stored
value does not lie within `[0, 100]`. -/
theorem c4_fragment_unclamped_counterexample :
    computeProgress fragSample = 125 ∧ ¬ computeProgress fragSample ≤ 100 := by
  constructor
  · norm_num [computeProgress, totalOf, downloadedOf, fragIdxOf, fragCntOf,
      pyOrInt, fragSample]
  · norm_num [computeProgress, totalOf, downloadedOf, fragIdxOf, fragCntOf,
      pyOrInt, fragSample]

/-- C4 (amended): in the byte branch (`total > 0` and `downloaded ≥ 0`)
the stored progress equals `min 100 (downloaded / total * 100)` and lies
in `[0, 100]`; in the fragment branch the stored progress equals
`fragment_index / fragment_count * 100` with no clamp, and lies in
`[0, 100]` whenever `0 ≤ fragment_index ≤ fragment_count`; otherwise
the stored progress is `0`. -/
theorem c4_progress_formula (d : ProgressSample) :
    (0 < totalOf d ∧ 0 ≤ downloadedOf d →
      computeProgress d = min 100 ((downloadedOf d : ℚ) / (totalOf d : ℚ) * 100) ∧
      0 ≤ computeProgress d ∧ computeProgress d ≤ 100) ∧
    (¬ (0 < totalOf d ∧ 0 ≤ downloadedOf d) → 0 < fragCntOf d →
      computeProgress d = (fragIdxOf d : ℚ) / (fragCntOf d : ℚ) * 100 ∧
      (0 ≤ fragIdxOf d → fragIdxOf d ≤ fragCntOf d →
        0 ≤ computeProgress d ∧ computeProgress d ≤ 100)) ∧
    (¬ (0 < totalOf d ∧ 0 ≤ downloadedOf d) → ¬ 0 < fragCntOf d →
      computeProgress d = 0) := by
  refine ⟨?_, ?_, ?_⟩
  · intro h
    have h1 : computeProgress d = min 100 ((downloadedOf d : ℚ) / (totalOf d : ℚ) * 100) := by
      rw [computeProgress, if_pos h]
    have hd : (0 : ℚ) ≤ (downloadedOf d : ℚ) := by exact_mod_cast h.2
    have ht : (0 : ℚ) < (totalOf d : ℚ) := by exact_mod_cast h.1
    have hq : (0 : ℚ) ≤ (downloadedOf d : ℚ) / (totalOf d : ℚ) * 100 := by positivity
    exact ⟨h1, by rw [h1]; exact le_min (by norm_num) hq, by rw [h1]; exact min_le_left _ _⟩
  · intro hn hf
    have h1 : computeProgress d = (fragIdxOf d : ℚ) / (fragCntOf d : ℚ) * 100 := by
      rw [computeProgress, if_neg hn, if_pos hf]
    refine ⟨h1, ?_⟩
    intro h0 hle
    have hfq : (0 : ℚ) < (fragCntOf d : ℚ) := by exact_mod_cast hf
    have hiq : (0 : ℚ) ≤ (fragIdxOf d : ℚ) := by exact_mod_cast h0
    have hleq : (fragIdxOf d : ℚ) ≤ (fragCntOf d : ℚ) := by exact_mod_cast hle
    constructor
    · rw [h1]; positivity
    · rw [h1]
      have hdiv : (fragIdxOf d : ℚ) / (fragCntOf d : ℚ) ≤ 1 := (div_le_one hfq).mpr hleq
      calc (fragIdxOf d : ℚ) / (fragCntOf d : ℚ) * 100
          ≤ 1 * 100 := by
            exact mul_le_mul_of_nonneg_right hdiv (by norm_num)
        _ = 100 := by norm_num
  · intro hn hf
    rw [computeProgress, if_neg hn, if_neg hf]

/-- Concrete Extractor sample in the byte branch: 100 of 200 bytes. -/
def byteSample : ProgressSample :=
  { total_bytes := some 200, total_bytes_estimate := none,
    downloaded_bytes := some 100, fragment_index := some 0, fragment_count := some 0 }

/-- Witness for C4 (amended) at the concrete byte-branch sample. -/
theorem c4_progress_formula_witness :
    0 ≤ computeProgress byteSample ∧ computeProgress byteSample ≤ 100 :=
  ⟨((c4_progress_formula byteSample).1 (by decide)).2.1,
   ((c4_progress_formula byteSample).1 (by decide)).2.2⟩

/-- Concrete failed attempt: a downloading job at 50 percent with
`retry_count = 0 < max_retries = 3` and `auto_retry` on. -/
def jRetry : DownloadStatus :=
  { jobBase with status := Status.downloading, progress := 50 }

/-- Counterexample to C3: after a failure the handler does retry
(`retrying`), but when the job is re-admitted for the new attempt
(`process_download` sets status `downloading`) its stored progress is
still the old value 50 — nothing in the source resets progress to 0. -/
theorem c3_progress_not_reset_counterexample :
    (handleFailure (some true) "err" jRetry).2 = FailureOutcome.retried ∧
    (startJob (handleFailure (some true) "err" jRetry).1).status = Status.downloading ∧
    (startJob (handleFailure (some true) "err" jRetry).1).progress = 50 ∧
    ¬ (startJob (handleFailure (some true) "err" jRetry).1).progress = 0 := by
  refine ⟨rfl, rfl, rfl, by decide⟩

/-- C3 (amended): on a failure of a non-cancelled job, if `auto_retry`
is set and `retry_count < max_retries` the handler increments
`retry_count` by one and sets status `retrying`, leaving the stored
progress unchanged (it is only overwritten by the new attempt's
samples); otherwise it sets status `failed` and records the error.
Consequently `retry_count` never exceeds `max_retries`, and a failure at
`retry_count = max_retries` never yields `retrying`. -/
theorem c3_retry_policy (auto_retry : Option Bool) (err : String)
    (j : DownloadStatus) (hnc : j.status ≠ Status.cancelled) :
    ((auto_retry = some true ∧ j.retry_count.getD 0 < j.max_retries.getD 0) →
      (handleFailure auto_retry err j).1.retry_count = some (j.retry_count.getD 0 + 1) ∧
      (handleFailure auto_retry err j).1.status = Status.retrying ∧
      (handleFailure auto_retry err j).1.progress = j.progress ∧
      (handleFailure auto_retry err j).2 = FailureOutcome.retried) ∧
    (¬ (auto_retry = some true ∧ j.retry_count.getD 0 < j.max_retries.getD 0) →
      (handleFailure auto_retry err j).1.status = Status.failed ∧
      (handleFailure auto_retry err j).1.error = some err ∧
      (handleFailure auto_retry err j).2 = FailureOutcome.failedOut) ∧
    (handleFailure auto_retry err j).1.max_retries = j.max_retries ∧
    (j.retry_count.getD 0 ≤ j.max_retries.getD 0 →
      (handleFailure auto_retry err j).1.retry_count.getD 0 ≤ j.max_retries.getD 0) ∧
    (j.retry_count.getD 0 = j.max_retries.getD 0 →
      (handleFailure auto_retry err j).1.status ≠ Status.retrying) := by
  by_cases hcond : auto_retry = some true ∧ j.retry_count.getD 0 < j.max_retries.getD 0
  · refine ⟨fun _ => ?_, fun hneg => absurd hcond hneg, ?_, ?_, ?_⟩
    · simp [handleFailure, hnc, hcond]
    · simp [handleFailure, hnc, hcond]
    · intro _
      simp only [handleFailure, if_neg hnc, if_pos hcond, Option.getD_some]
      have := hcond.2
      omega
    · intro heq
      have := hcond.2
      omega
  · refine ⟨fun hpos => absurd hpos hcond, fun _ => ?_, ?_, ?_, ?_⟩
    · simp [handleFailure, hnc, hcond]
    · simp [handleFailure, hnc, hcond]
    · intro hle
      simp only [handleFailure, if_neg hnc, if_neg hcond]
      exact hle
    · intro _
      simp [handleFailure, hnc, hcond]

/-- Witness for C3 (amended) at the concrete failed attempt `jRetry`. -/
theorem c3_retry_policy_witness :
    (handleFailure (some true) "err2" jRetry).1.status = Status.retrying ∧
    (handleFailure (some true) "err2" jRetry).1.retry_count = some 1 ∧
    (handleFailure (some true) "err2" jRetry).2 = FailureOutcome.retried := by
  have h := c3_retry_policy (some true) "err2" jRetry (by decide)
  have h1 := h.1 (by decide)
  exact ⟨h1.2.1, h1.1, h1.2.2.2⟩

end OurTube

namespace OurTube

/-- Model of `datetime.fromisoformat(request.scheduled_time.replace('Z', '+00:00'))`
wrapped in `try/except ValueError`: a partial parser from strings to
`Nat` timestamps.  Only the success/failure split matters to the claims;
digit strings parse, anything else raises (`none`). -/
def fromIsoformat (s : String) : Option Nat :=
  if s.data ≠ [] ∧ s.data.all (fun c => c.isDigit) then
    some (s.data.foldl (fun n c => 10 * n + (c.toNat - 48)) 0)
  else none

/-- Scheduled-time handling of `create_download` (`main.py` lines 583-591):
returns the parsed `scheduled_time` stored on the job (parsed value even
when it lies in the past, `None` on a parse error) together with the
`initial_status` (`scheduled` only when the parsed time is strictly in
the future). -/
def initialPair (req : DownloadRequest) (now : Nat) : Option Nat × Status :=
  match req.scheduled_time with
  | none => (none, Status.queued)
  | some s =>
    match fromIsoformat s with
    | none => (none, Status.queued)
    | some st => (some st, if now < st then Status.scheduled else Status.queued)

/-- The `DownloadStatus` record built by `create_download`
(`main.py` lines 593-601), including `max_retries = request.max_retries or 3`
and `retry_count = 0`. -/
def initJob (req : DownloadRequest) (id : String) (now : Nat) : DownloadStatus :=
  { id := id, url := req.url, status := (initialPair req now).2, progress := 0,
    filename := none, error := none, speed := none, eta := none,
    created_at := now, completed_at := none,
    scheduled_time := (initialPair req now).1,
    retry_count := some 0,
    max_retries := some (pyOrInt req.max_retries 3) }

/-- Task spawned at the end of `create_download`: `schedule_download`
for scheduled jobs, `process_download` otherwise. -/
inductive SpawnedTask
  | processTask (download_id : String)
  | scheduleTask (download_id : String)
deriving DecidableEq

/-- Response of the intake endpoint.  The `capacityError` variant
expresses the spec's `CapacityExceeded` rejection so the capacity claim
is statable; `main.py` itself has no such branch. -/
inductive IntakeResult
  | accepted (download_id : String) (status : Status)
  | capacityError
deriving DecidableEq

/-- The `POST /api/download` handler `create_download`
(`main.py` lines 578-609): unconditionally creates the job record,
stores it in the registry, spawns the processing or scheduling task and
returns the id with the initial status.  There is no capacity check of
any kind in the source. -/
def create_download (reg : Multiset DownloadStatus) (req : DownloadRequest)
    (id : String) (now : Nat) :
    Multiset DownloadStatus × IntakeResult × SpawnedTask :=
  let job := initJob req id now
  (job ::ₘ reg,
   IntakeResult.accepted id job.status,
   if job.status = Status.scheduled then SpawnedTask.scheduleTask id
   else SpawnedTask.processTask id)

/-- Registry with seven queued jobs, exceeding the backlog bound
`2 * N = 6` for the default concurrency bound `N = 3`. -/
def reg7 : Multiset DownloadStatus :=
  Multiset.replicate 7 jobBase

/-- Request with no scheduling options, used by intake examples. -/
def reqPlain : DownloadRequest :=
  { url := "u", scheduled_time := none, auto_retry := some true, max_retries := some 3 }

/-- Counterexample to C6: with seven jobs already queued (more than twice
the default concurrency bound 3), `create_download` still accepts the
request, creates the job record and returns its id — it is not rejected
with a capacity error. -/
theorem c6_no_capacity_check_counterexample :
    Multiset.countP (fun j => j.status = Status.queued) reg7 = 7 ∧
    (create_download reg7 reqPlain "j8" 0).2.1 = IntakeResult.accepted "j8" Status.queued ∧
    (create_download reg7 reqPlain "j8" 0).2.1 ≠ IntakeResult.capacityError ∧
    initJob reqPlain "j8" 0 ∈ (create_download reg7 reqPlain "j8" 0).1 ∧
    Multiset.card (create_download reg7 reqPlain "j8" 0).1 = 8 := by
  refine ⟨by decide, by decide, by decide, ?_, by decide⟩
  simp [create_download]

/-- C6 (amended): `main.py`'s intake never rejects for capacity — for
every registry state, every request is accepted, the job record is
created and stored, and the registry grows by one; the backlog is
unbounded.  (The 503 backlog rejection described by the spec exists only
in the alternative `main_optimized.py` implementation.) -/
theorem c6_intake_unbounded (reg : Multiset DownloadStatus)
    (req : DownloadRequest) (id : String) (now : Nat) :
    (create_download reg req id now).2.1
        = IntakeResult.accepted id (initJob req id now).status ∧
    (create_download reg req id now).2.1 ≠ IntakeResult.capacityError ∧
    initJob req id now ∈ (create_download reg req id now).1 ∧
    Multiset.card (create_download reg req id now).1 = Multiset.card reg + 1 := by
  refine ⟨rfl, by simp [create_download], Multiset.mem_cons_self _ _, ?_⟩
  simp [create_download]

/-- C10: an intake request whose `scheduled_time` string fails to parse
is not rejected: the `ValueError` is caught, the job is created with
status `queued` and a null `scheduled_time`, the immediate
`process_download` task is spawned (no scheduling wait), and the new id
is returned to the caller. -/
theorem c10_bad_scheduled_time_tolerated (reg : Multiset DownloadStatus)
    (req : DownloadRequest) (id : String) (now : Nat) (s : String)
    (hs : req.scheduled_time = some s) (hbad : fromIsoformat s = none) :
    (initJob req id now).status = Status.queued ∧
    (initJob req id now).scheduled_time = none ∧
    (create_download reg req id now).2.1 = IntakeResult.accepted id Status.queued ∧
    (create_download reg req id now).2.2 = SpawnedTask.processTask id ∧
    initJob req id now ∈ (create_download reg req id now).1 := by
  have hp : initialPair req now = (none, Status.queued) := by
    simp only [initialPair, hs, hbad]
  refine ⟨?_, ?_, ?_, ?_, by simp [create_download]⟩
  · simp [initJob, hp]
  · simp [initJob, hp]
  · simp [create_download, initJob, hp]
  · simp [create_download, initJob, hp]

/-- Request with an unparseable `scheduled_time`. -/
def reqBadTime : DownloadRequest :=
  { url := "u", scheduled_time := some "not-a-date", auto_retry := some true,
    max_retries := some 3 }

/-- Witness for C10 at a concrete unparseable timestamp string. -/
theorem c10_bad_scheduled_time_witness :
    (initJob reqBadTime "j9" 0).status = Status.queued ∧
    (initJob reqBadTime "j9" 0).scheduled_time = none ∧
    (create_download 0 reqBadTime "j9" 0).2.2 = SpawnedTask.processTask "j9" := by
  have h := c10_bad_scheduled_time_tolerated 0 reqBadTime "j9" 0 "not-a-date" rfl (by decide)
  exact ⟨h.1, h.2.1, h.2.2.2.1⟩

end OurTube

namespace OurTube

/-- Response of the `DELETE /api/download/{id}` endpoint: the 404
error, the "Download cancelled" message, or the
"Cannot cancel completed download" message. -/
inductive CancelResponse
  | notFound
  | cancelledMsg
  | cannotCancelMsg
deriving DecidableEq

/-- The `cancel_download` endpoint (`main.py` lines 750-759): 404 when
the id is unknown; sets status `cancelled` and confirms only when the
status is `downloading` or `queued`; otherwise returns the explanatory
message and leaves the record unchanged.  The `scheduled` status is
absent from the allowed list. -/
def cancel_download (j : Option DownloadStatus) :
    Option DownloadStatus × CancelResponse :=
  match j with
  | none => (none, CancelResponse.notFound)
  | some job =>
    if job.status = Status.downloading ∨ job.status = Status.queued then
      (some { job with status := Status.cancelled }, CancelResponse.cancelledMsg)
    else
      (some job, CancelResponse.cannotCancelMsg)

/-- Concrete job sitting in the `scheduled` state. -/
def jSched : DownloadStatus :=
  { jobBase with status := Status.scheduled, scheduled_time := some 100 }

/-- C7 (code bug): cancelling a `scheduled` job does not cancel it — the
endpoint only accepts `downloading` and `queued`, so a `scheduled` job
is left unchanged and receives the "cannot cancel" message, although the
scheduler's own wait loop checks for a cancellation that can never be
requested; unknown ids yield 404 and queued jobs cancel as claimed. -/
theorem c7_scheduled_not_cancellable :
    cancel_download (some jSched) = (some jSched, CancelResponse.cannotCancelMsg) ∧
    (cancel_download (some jSched)).1 ≠ some { jSched with status := Status.cancelled } ∧
    cancel_download none = (none, CancelResponse.notFound) ∧
    cancel_download (some jobBase)
      = (some { jobBase with status := Status.cancelled }, CancelResponse.cancelledMsg) := by
  refine ⟨by decide, by decide, rfl, by decide⟩

end OurTube

namespace OurTube

/-- Configured maximum history size (`MAX_HISTORY_SIZE`, default 1000). -/
def MAX_HISTORY_SIZE : Nat := 1000

/-- Durable history path (`HISTORY_FILE`, default `download_history.json`). -/
def HISTORY_FILE : String := "download_history.json"

/-- Status strings written by `model_dump` for each `Status` value. -/
def statusString : Status → String
  | Status.queued => "queued"
  | Status.scheduled => "scheduled"
  | Status.downloading => "downloading"
  | Status.processing => "processing"
  | Status.completed => "completed"
  | Status.failed => "failed"
  | Status.cancelled => "cancelled"
  | Status.retrying => "retrying"

/-- Reading a status string back (the pydantic `status: str` field takes
any string; the model restricts to the eight strings the program writes,
anything else fails the parse). -/
def statusOfString (s : String) : Option Status :=
  if s = "queued" then some Status.queued
  else if s = "scheduled" then some Status.scheduled
  else if s = "downloading" then some Status.downloading
  else if s = "processing" then some Status.processing
  else if s = "completed" then some Status.completed
  else if s = "failed" then some Status.failed
  else if s = "cancelled" then some Status.cancelled
  else if s = "retrying" then some Status.retrying
  else none

/-- Model of `datetime.isoformat()`: the base-10 digit string of the
`Nat` timestamp, as its digit list. -/
def isoformat (t : Nat) : List Nat :=
  Nat.digits 10 t

/-- Serialized job record as written to the history file by
`save_download_history`: `model_dump()` with `created_at` and
`completed_at` converted through `isoformat` — and `scheduled_time`
left as a raw `datetime` object (the source forgets to convert it, so
a non-null value makes `json.dump` raise `TypeError`). -/
structure SerialJob where
  id : String
  url : String
  status : String
  progress : ℚ
  filename : Option String
  error : Option String
  speed : Option String
  eta : Option String
  created_at : List Nat
  completed_at : Option (List Nat)
  scheduled_time : Option Nat
  retry_count : Option Int
  max_retries : Option Int
deriving DecidableEq

/-- Conversion of one job record into its serialized form
(`main.py` lines 326-333). -/
def serializeJob (j : DownloadStatus) : SerialJob :=
  { id := j.id, url := j.url, status := statusString j.status,
    progress := j.progress, filename := j.filename, error := j.error,
    speed := j.speed, eta := j.eta,
    created_at := isoformat j.created_at,
    completed_at := j.completed_at.map isoformat,
    scheduled_time := j.scheduled_time,
    retry_count := j.retry_count, max_retries := j.max_retries }

/-- Stable insertion step for sorting newest-`created_at`-first
(model of Python `list.sort(key=..., reverse=True)`, which is stable). -/
def insertDesc (j : DownloadStatus) : List DownloadStatus → List DownloadStatus
  | [] => [j]
  | a :: rest =>
    if j.created_at < a.created_at then a :: insertDesc j rest
    else j :: a :: rest

/-- Stable sort newest-`created_at`-first (`main.py` line 321). -/
def sortDesc (l : List DownloadStatus) : List DownloadStatus :=
  l.foldr insertDesc []

/-- The slice of the registry retained by a history save: sorted
newest-first and truncated to `MAX_HISTORY_SIZE` (`main.py` lines 318-322). -/
def retainedHistory (jobs : List DownloadStatus) : List DownloadStatus :=
  (sortDesc jobs).take MAX_HISTORY_SIZE

/-- Serialization attempted by `save_download_history`: succeeds iff the
retained records are all JSON-serializable, which requires every
`scheduled_time` to be null (`json.dump` raises `TypeError` on the raw
`datetime` otherwise). -/
def serializeHistory (jobs : List DownloadStatus) : Option (List SerialJob) :=
  if ∀ j ∈ retainedHistory jobs, j.scheduled_time = none then
    some ((retainedHistory jobs).map serializeJob)
  else
    none

/-- Contents of the durable file after a save: a well-formed history
array, or the truncated/partial garbage left when `json.dump` raised
after `open(..., 'w')` had already truncated the file. -/
inductive FileContent
  | jsonHistory (items : List SerialJob)
  | corruptPartial
deriving DecidableEq

/-- Filesystem operations a save may perform. -/
inductive FsOp
  | writeFile (path : String) (content : FileContent)
  | replaceFile (src dst : String)
deriving DecidableEq

/-- The write behaviour of `save_download_history` (`main.py` lines
314-338): a single direct `open(HISTORY_FILE, 'w')` + `json.dump` —
there is no temporary file and no atomic replace.  When serialization
raises, the already-truncated durable file is left with partial
content. -/
def save_download_history (jobs : List DownloadStatus) : List FsOp :=
  match serializeHistory jobs with
  | some items => [FsOp.writeFile HISTORY_FILE (FileContent.jsonHistory items)]
  | none => [FsOp.writeFile HISTORY_FILE FileContent.corruptPartial]

/-- Test for an in-place write of the durable history file. -/
def directDurableWrite (op : FsOp) : Bool :=
  match op with
  | FsOp.writeFile path _ => path = HISTORY_FILE
  | FsOp.replaceFile _ _ => false

/-- Spec-side definition, following the spec's words "write to a
temporary location then atomically replace": a trace obeys the
atomic-replace protocol iff it never writes the durable history file
in place. -/
def specAtomicReplaceProtocol (ops : List FsOp) : Prop :=
  ∀ op ∈ ops, directDurableWrite op = false

/-- Counterexample to C8: a save (here of the empty registry) performs a
single direct in-place write of the durable history file, violating the
write-temp-then-atomically-replace protocol the claim describes. -/
theorem c8_direct_write_counterexample :
    save_download_history []
        = [FsOp.writeFile HISTORY_FILE (FileContent.jsonHistory [])] ∧
    ¬ specAtomicReplaceProtocol (save_download_history []) := by
  constructor
  · rfl
  · intro h
    exact absurd (h (FsOp.writeFile HISTORY_FILE (FileContent.jsonHistory []))
      (by rw [save_download_history]; exact List.mem_singleton.mpr rfl)) (by decide)

end OurTube

namespace OurTube

/-- Membership in an insertion step adds at most the inserted element. -/
theorem mem_insertDesc {x j : DownloadStatus} :
    ∀ {l : List DownloadStatus}, x ∈ insertDesc j l → x = j ∨ x ∈ l := by
  intro l
  induction l with
  | nil => simp [insertDesc]
  | cons a rest ih =>
    rw [insertDesc]
    by_cases hlt : j.created_at < a.created_at
    · rw [if_pos hlt]
      intro h
      rcases List.mem_cons.mp h with rfl | h
      · exact Or.inr (List.mem_cons_self _ _)
      · rcases ih h with h | h
        · exact Or.inl h
        · exact Or.inr (List.mem_cons_of_mem _ h)
    · rw [if_neg hlt]
      intro h
      rcases List.mem_cons.mp h with rfl | h
      · exact Or.inl rfl
      · exact Or.inr h

/-- Inserting into a list sorted newest-first keeps it sorted. -/
theorem insertDesc_sorted (j : DownloadStatus) (l : List DownloadStatus)
    (h : l.Sorted (fun a b => b.created_at ≤ a.created_at)) :
    (insertDesc j l).Sorted (fun a b => b.created_at ≤ a.created_at) := by
  induction l with
  | nil => simp [insertDesc]
  | cons a rest ih =>
    rw [List.sorted_cons] at h
    obtain ⟨ha, hrest⟩ := h
    rw [insertDesc]
    by_cases hlt : j.created_at < a.created_at
    · rw [if_pos hlt, List.sorted_cons]
      refine ⟨?_, ih hrest⟩
      intro b hb
      rcases mem_insertDesc hb with rfl | hb
      · exact Nat.le_of_lt hlt
      · exact ha b hb
    · rw [if_neg hlt, List.sorted_cons]
      refine ⟨?_, List.sorted_cons.mpr ⟨ha, hrest⟩⟩
      intro b hb
      rcases List.mem_cons.mp hb with rfl | hb
      · exact Nat.le_of_not_lt hlt
      · exact le_trans (ha b hb) (Nat.le_of_not_lt hlt)

/-- The save-time sort really is sorted newest-`created_at`-first. -/
theorem sortDesc_sorted (l : List DownloadStatus) :
    (sortDesc l).Sorted (fun a b => b.created_at ≤ a.created_at) := by
  induction l with
  | nil => simp [sortDesc]
  | cons a rest ih => exact insertDesc_sorted a (sortDesc rest) ih

/-- C8 (amended): every history save serializes the registry truncated
to `MAX_HISTORY_SIZE`, ordered newest-`created_at`-first, but performs
the write as a single direct in-place write of the durable history file
— no temporary file, no atomic replace — so a crash mid-write (or the
`TypeError` raised when a retained job carries a non-null
`scheduled_time`) leaves the durable file truncated or corrupted. -/
theorem c8_save_semantics (jobs : List DownloadStatus) :
    (∀ op ∈ save_download_history jobs, directDurableWrite op = true) ∧
    ¬ specAtomicReplaceProtocol (save_download_history jobs) ∧
    (∀ items, serializeHistory jobs = some items →
      items = (retainedHistory jobs).map serializeJob ∧
      save_download_history jobs
        = [FsOp.writeFile HISTORY_FILE (FileContent.jsonHistory items)]) ∧
    (retainedHistory jobs).Sorted (fun a b => b.created_at ≤ a.created_at) ∧
    (retainedHistory jobs).length ≤ MAX_HISTORY_SIZE ∧
    (¬ (∀ j ∈ retainedHistory jobs, j.scheduled_time = none) →
      save_download_history jobs
        = [FsOp.writeFile HISTORY_FILE FileContent.corruptPartial]) := by
  have hops : ∀ op ∈ save_download_history jobs, directDurableWrite op = true := by
    intro op hop
    rw [save_download_history] at hop
    rcases hser : serializeHistory jobs with _ | items
    · rw [hser] at hop
      rw [List.mem_singleton.mp hop]
      simp [directDurableWrite]
    · rw [hser] at hop
      rw [List.mem_singleton.mp hop]
      simp [directDurableWrite]
  refine ⟨hops, ?_, ?_, ?_, ?_, ?_⟩
  · intro hproto
    have hmem : ∃ op, op ∈ save_download_history jobs := by
      rw [save_download_history]
      rcases serializeHistory jobs with _ | items
      · exact ⟨_, List.mem_singleton.mpr rfl⟩
      · exact ⟨_, List.mem_singleton.mpr rfl⟩
    obtain ⟨op, hop⟩ := hmem
    have h1 := hops op hop
    have h2 := hproto op hop
    rw [h1] at h2
    exact Bool.noConfusion h2
  · intro items hser
    rw [serializeHistory] at hser
    by_cases hall : ∀ j ∈ retainedHistory jobs, j.scheduled_time = none
    · rw [if_pos hall] at hser
      have hitems : items = (retainedHistory jobs).map serializeJob :=
        (Option.some.inj hser).symm
      refine ⟨hitems, ?_⟩
      rw [save_download_history, serializeHistory, if_pos hall, hitems]
    · rw [if_neg hall] at hser
      exact Option.noConfusion hser
  · exact List.Pairwise.sublist (List.take_sublist _ _) (sortDesc_sorted jobs)
  · exact List.length_take_le _ _
  · intro hneg
    rw [save_download_history]
    rw [serializeHistory, if_neg hneg]

/-- Witness for C8 (amended) at a concrete one-job registry. -/
theorem c8_save_semantics_witness :
    save_download_history [jobBase]
      = [FsOp.writeFile HISTORY_FILE
          (FileContent.jsonHistory ((retainedHistory [jobBase]).map serializeJob))] := by
  have hser : serializeHistory [jobBase]
      = some ((retainedHistory [jobBase]).map serializeJob) := by
    rw [serializeHistory, if_pos (by decide)]
  exact ((c8_save_semantics [jobBase]).2.2.1
    ((retainedHistory [jobBase]).map serializeJob) hser).2

end OurTube

namespace OurTube

/-- Model of `datetime.fromisoformat` on save-produced content: decodes
the digit string written by `isoformat`. -/
def parseIso (ds : List Nat) : Nat :=
  Nat.ofDigits 10 ds

/-- Parsing one history item back into a `DownloadStatus`
(`load_download_history`, `main.py` lines 303-309: `fromisoformat` on
`created_at`/`completed_at` when present, then `DownloadStatus(**item)`);
an unrecognized status string makes the reconstruction fail. -/
def deserializeJob (s : SerialJob) : Option DownloadStatus :=
  match statusOfString s.status with
  | none => none
  | some st =>
    some { id := s.id, url := s.url, status := st, progress := s.progress,
           filename := s.filename, error := s.error, speed := s.speed,
           eta := s.eta,
           created_at := parseIso s.created_at,
           completed_at := s.completed_at.map parseIso,
           scheduled_time := s.scheduled_time,
           retry_count := s.retry_count, max_retries := s.max_retries }

/-- The read loop of `load_download_history`: items are parsed in file
order; a parse failure raises inside the `try`, aborting the loop and
keeping only the items read so far. -/
def load_download_history : List SerialJob → List DownloadStatus
  | [] => []
  | item :: rest =>
    match deserializeJob item with
    | some j => j :: load_download_history rest
    | none => []

/-- Status strings round-trip. -/
theorem statusOfString_statusString (st : Status) :
    statusOfString (statusString st) = some st := by
  cases st <;> rfl

/-- Timestamps round-trip through the serialized digit string. -/
theorem parseIso_isoformat (t : Nat) : parseIso (isoformat t) = t :=
  Nat.ofDigits_digits 10 t

/-- One job record round-trips through serialization. -/
theorem deserializeJob_serializeJob (j : DownloadStatus) :
    deserializeJob (serializeJob j) = some j := by
  cases j with
  | mk id url status progress filename error speed eta created_at
      completed_at scheduled_time retry_count max_retries =>
    cases completed_at with
    | none =>
      simp [serializeJob, deserializeJob, statusOfString_statusString,
        parseIso_isoformat]
    | some t =>
      simp [serializeJob, deserializeJob, statusOfString_statusString,
        parseIso_isoformat]

/-- Loading the serialization of a job list reproduces the list. -/
theorem load_map_serializeJob (l : List DownloadStatus) :
    load_download_history (l.map serializeJob) = l := by
  induction l with
  | nil => rfl
  | cons a rest ih =>
    simp only [List.map_cons, load_download_history, deserializeJob_serializeJob, ih]

/-- C9 (amended): provided every retained job has a null
`scheduled_time` (a non-null one makes the save abort with a
serialization `TypeError` and write nothing well-formed), saving the
registry and loading the resulting file reproduces exactly the retained
jobs — equal ids, statuses, and `created_at`/`completed_at` timestamps —
i.e. the registry truncated to `MAX_HISTORY_SIZE`, newest-`created_at`
first. -/
theorem c9_history_roundtrip (jobs : List DownloadStatus)
    (h : ∀ j ∈ retainedHistory jobs, j.scheduled_time = none) :
    serializeHistory jobs = some ((retainedHistory jobs).map serializeJob) ∧
    load_download_history ((retainedHistory jobs).map serializeJob)
      = retainedHistory jobs := by
  constructor
  · rw [serializeHistory, if_pos h]
  · exact load_map_serializeJob _

/-- Witness for C9 (amended) at a concrete one-job registry. -/
theorem c9_history_roundtrip_witness :
    serializeHistory [jobBase] = some ((retainedHistory [jobBase]).map serializeJob) ∧
    load_download_history ((retainedHistory [jobBase]).map serializeJob)
      = retainedHistory [jobBase] :=
  c9_history_roundtrip [jobBase] (by decide)

/-- Job whose `scheduled_time` is still set. -/
def jSchedHist : DownloadStatus :=
  { jobBase with scheduled_time := some 5 }

/-- Counterexample to C9: for a registry containing a job with a
non-null `scheduled_time`, the save serializes nothing (`model_dump`
leaves the raw `datetime` in the dict and `json.dump` raises
`TypeError`), the durable file is left corrupted, and no load can
reproduce the job — the round trip fails although the retained set is
non-empty. -/
theorem c9_scheduled_time_breaks_roundtrip :
    serializeHistory [jSchedHist] = none ∧
    save_download_history [jSchedHist]
      = [FsOp.writeFile HISTORY_FILE FileContent.corruptPartial] ∧
    retainedHistory [jSchedHist] = [jSchedHist] ∧
    jSchedHist.scheduled_time = some 5 := by
  have hser : serializeHistory [jSchedHist] = none := by
    rw [serializeHistory, if_neg (by decide)]
  refine ⟨hser, ?_, by decide, rfl⟩
  rw [save_download_history, hser]

end OurTube

namespace OurTube

/-- Progress-hook job mutation (`main.py` lines 371-405): stores the
computed percentage and the speed/eta strings (their formatting is
abstracted into the `sp`/`et` parameters; no claim depends on it). -/
def progressJob (d : ProgressSample) (sp et : Option String) (j : DownloadStatus) :
    DownloadStatus :=
  { j with progress := computeProgress d, speed := sp, eta := et }

/-- Finished-hook job mutation (`main.py` lines 419-424): status
`processing`, and the sanitized basename when a filename was reported
(the sanitization itself is abstracted into the parameter). -/
def finishJob (fn : Option String) (j : DownloadStatus) : DownloadStatus :=
  match fn with
  | some f => { j with status := Status.processing, filename := some f }
  | none => { j with status := Status.processing }

/-- Cancellation mutation (`cancel_download` line 756 and the
`except DownloadCancelled` handler line 680). -/
def cancelJob (j : DownloadStatus) : DownloadStatus :=
  { j with status := Status.cancelled }

/-- Successful-completion mutation (`main.py` lines 664-666). -/
def completeJob (t : Nat) (j : DownloadStatus) : DownloadStatus :=
  { j with status := Status.completed, completed_at := some t, progress := 100 }

/-- Control position of the (at most one) active `process_download` /
`schedule_download` coroutine of a job: `waiting` inside
`schedule_download`'s sleep, `pending` before the semaphore is acquired,
`started` inside the `async with download_semaphore` body, `backoff`
inside the 5-second retry sleep (still under the semaphore), `done`
after the coroutine returned and released its slot. -/
inductive Phase
  | waiting
  | pending
  | started
  | backoff
  | done
deriving DecidableEq

/-- One job of the registry together with its coroutine position and
the immutable `auto_retry` flag of the originating request. -/
structure JobState where
  job : DownloadStatus
  phase : Phase
  auto_retry : Option Bool
deriving DecidableEq

/-- Global state: the registry contents (the `downloads` dict) with each
job's coroutine position. -/
abbrev GState := Multiset JobState

/-- State of a freshly created job (`create_download`): `scheduled` jobs
wait in `schedule_download`, all others have a `process_download` task
pending on the semaphore. -/
def initJobState (req : DownloadRequest) (id : String) (now : Nat) : JobState :=
  { job := initJob req id now,
    phase := if (initialPair req now).2 = Status.scheduled then Phase.waiting
             else Phase.pending,
    auto_retry := req.auto_retry }

/-- Number of semaphore slots currently held: the coroutines inside the
`async with download_semaphore` body (`started`) plus those sleeping in
the retry backoff before releasing it (`backoff`). -/
def heldSlots (s : GState) : Nat :=
  Multiset.countP (fun a => a.phase = Phase.started ∨ a.phase = Phase.backoff) s

/-- Number of jobs whose status is `downloading` or `processing`. -/
def countDownProc (s : GState) : Nat :=
  Multiset.countP
    (fun a => a.job.status = Status.downloading ∨ a.job.status = Status.processing) s

/-- Number of jobs whose status is `downloading`. -/
def countDownloading (s : GState) : Nat :=
  Multiset.countP (fun a => a.job.status = Status.downloading) s

/-- Where the coroutine goes after the failure handler: into the
5-second backoff sleep on a retry, otherwise it returns (releasing the
slot). -/
def phaseAfterFailure : FailureOutcome → Phase
  | FailureOutcome.retried => Phase.backoff
  | FailureOutcome.skipped => Phase.done
  | FailureOutcome.failedOut => Phase.done

/-- Interleaving semantics of `main.py`'s orchestration, one constructor
per observable mutation.  The semaphore of capacity `N`
(`download_semaphore = asyncio.Semaphore(MAX_CONCURRENT_DOWNLOADS)`)
gates `startRun`; it is held through `started` and `backoff` and
released when the coroutine returns. -/
inductive Step (N : Nat) : GState → GState → Prop
  | create (s : GState) (req : DownloadRequest) (id : String) (t : Nat) :
      Step N s (initJobState req id t ::ₘ s)
  | scheduleFire (rest : GState) (a : JobState)
      (hph : a.phase = Phase.waiting) (hst : a.job.status = Status.scheduled) :
      Step N (a ::ₘ rest)
        ({ a with job := { a.job with status := Status.queued },
                  phase := Phase.pending } ::ₘ rest)
  | scheduleStale (rest : GState) (a : JobState)
      (hph : a.phase = Phase.waiting) (hst : a.job.status ≠ Status.scheduled) :
      Step N (a ::ₘ rest) ({ a with phase := Phase.done } ::ₘ rest)
  | startRun (rest : GState) (a : JobState)
      (hph : a.phase = Phase.pending) (hst : a.job.status ≠ Status.cancelled)
      (hslot : heldSlots (a ::ₘ rest) < N) :
      Step N (a ::ₘ rest)
        ({ a with job := startJob a.job, phase := Phase.started } ::ₘ rest)
  | startCancelled (rest : GState) (a : JobState)
      (hph : a.phase = Phase.pending) (hst : a.job.status = Status.cancelled) :
      Step N (a ::ₘ rest) ({ a with phase := Phase.done } ::ₘ rest)
  | progressHook (rest : GState) (a : JobState) (d : ProgressSample)
      (sp et : Option String)
      (hph : a.phase = Phase.started) (hst : a.job.status ≠ Status.cancelled) :
      Step N (a ::ₘ rest) ({ a with job := progressJob d sp et a.job } ::ₘ rest)
  | finishedHook (rest : GState) (a : JobState) (fn : Option String)
      (hph : a.phase = Phase.started) (hst : a.job.status ≠ Status.cancelled) :
      Step N (a ::ₘ rest) ({ a with job := finishJob fn a.job } ::ₘ rest)
  | hookCancelRaise (rest : GState) (a : JobState)
      (hph : a.phase = Phase.started) (hst : a.job.status = Status.cancelled) :
      Step N (a ::ₘ rest)
        ({ a with job := cancelJob a.job, phase := Phase.done } ::ₘ rest)
  | completeOk (rest : GState) (a : JobState) (t : Nat)
      (hph : a.phase = Phase.started) (hst : a.job.status ≠ Status.cancelled) :
      Step N (a ::ₘ rest)
        ({ a with job := completeJob t a.job, phase := Phase.done } ::ₘ rest)
  | completeCancelled (rest : GState) (a : JobState)
      (hph : a.phase = Phase.started) (hst : a.job.status = Status.cancelled) :
      Step N (a ::ₘ rest) ({ a with phase := Phase.done } ::ₘ rest)
  | failStep (rest : GState) (a : JobState) (err : String)
      (hph : a.phase = Phase.started) :
      Step N (a ::ₘ rest)
        ({ a with job := (handleFailure a.auto_retry err a.job).1,
                  phase := phaseAfterFailure (handleFailure a.auto_retry err a.job).2 } ::ₘ rest)
  | backoffDone (rest : GState) (a : JobState)
      (hph : a.phase = Phase.backoff) :
      Step N (a ::ₘ rest) ({ a with phase := Phase.pending } ::ₘ rest)
  | cancelApi (rest : GState) (a : JobState)
      (hst : a.job.status = Status.downloading ∨ a.job.status = Status.queued) :
      Step N (a ::ₘ rest) ({ a with job := cancelJob a.job } ::ₘ rest)

/-- Reachability from the empty registry under concurrency bound `N`. -/
inductive Reach (N : Nat) : GState → Prop
  | init : Reach N 0
  | step {s t : GState} : Reach N s → Step N s t → Reach N t

/-- Coroutine-position facts: which statuses a job can carry in each
phase. -/
def PhaseInv (a : JobState) : Prop :=
  (a.phase = Phase.waiting → a.job.status = Status.scheduled) ∧
  (a.phase = Phase.pending →
    a.job.status = Status.queued ∨ a.job.status = Status.retrying ∨
    a.job.status = Status.cancelled) ∧
  (a.phase = Phase.started →
    a.job.status = Status.downloading ∨ a.job.status = Status.processing ∨
    a.job.status = Status.cancelled) ∧
  (a.phase = Phase.backoff → a.job.status = Status.retrying)

/-- Status facts: `downloading`/`processing` only inside the semaphore
body; `completed`/`failed` only after the coroutine has returned. -/
def StatInv (a : JobState) : Prop :=
  ((a.job.status = Status.downloading ∨ a.job.status = Status.processing) →
    a.phase = Phase.started) ∧
  ((a.job.status = Status.completed ∨ a.job.status = Status.failed) →
    a.phase = Phase.done)

/-- The `completed_at` discipline actually implemented by `main.py`:
set exactly on the transition to `completed`, never on `failed` or
`cancelled`. -/
def CompInv (a : JobState) : Prop :=
  a.job.completed_at ≠ none ↔ a.job.status = Status.completed

/-- Per-job inductive invariant. -/
def JInv (a : JobState) : Prop :=
  PhaseInv a ∧ StatInv a ∧ CompInv a

/-- Global inductive invariant: the semaphore is never over-acquired and
every job satisfies the per-job invariant. -/
def Inv (N : Nat) (s : GState) : Prop :=
  heldSlots s ≤ N ∧ ∀ a ∈ s, JInv a

end OurTube

namespace OurTube

/-- Slot count over a cons. -/
theorem heldSlots_cons (a : JobState) (s : GState) :
    heldSlots (a ::ₘ s)
      = heldSlots s + if a.phase = Phase.started ∨ a.phase = Phase.backoff then 1 else 0 :=
  Multiset.countP_cons _ a s

/-- Downloading/processing count over a cons. -/
theorem countDownProc_cons (a : JobState) (s : GState) :
    countDownProc (a ::ₘ s)
      = countDownProc s
        + if a.job.status = Status.downloading ∨ a.job.status = Status.processing
          then 1 else 0 :=
  Multiset.countP_cons _ a s

/-- Downloading count over a cons. -/
theorem countDownloading_cons (a : JobState) (s : GState) :
    countDownloading (a ::ₘ s)
      = countDownloading s + if a.job.status = Status.downloading then 1 else 0 :=
  Multiset.countP_cons _ a s

/-- Pointwise implication between predicates bounds the counts. -/
theorem countP_le_of_imp {p q : JobState → Prop}
    [DecidablePred p] [DecidablePred q]
    (s : GState) (h : ∀ a ∈ s, p a → q a) :
    Multiset.countP p s ≤ Multiset.countP q s := by
  induction s using Multiset.induction_on with
  | empty => simp
  | cons a t ih =>
    rw [Multiset.countP_cons, Multiset.countP_cons]
    have ht := ih (fun x hx hp => h x (Multiset.mem_cons_of_mem hx) hp)
    by_cases hp : p a
    · rw [if_pos hp, if_pos (h a (Multiset.mem_cons_self a t) hp)]
      omega
    · rw [if_neg hp]
      exact le_trans (by simpa using ht) (Nat.le_add_right _ _)

/-- A job that is not `completed` has no `completed_at` under `CompInv`. -/
theorem compinv_none {a : JobState} (h : CompInv a)
    (hne : a.job.status ≠ Status.completed) : a.job.completed_at = none := by
  by_contra hc
  exact hne (h.mp hc)

/-- The initial status is `queued` or `scheduled`. -/
theorem initialPair_snd (req : DownloadRequest) (now : Nat) :
    (initialPair req now).2 = Status.queued ∨ (initialPair req now).2 = Status.scheduled := by
  rcases hs : req.scheduled_time with _ | s
  · simp [initialPair, hs]
  · rcases hf : fromIsoformat s with _ | st
    · simp [initialPair, hs, hf]
    · by_cases hlt : now < st
      · simp [initialPair, hs, hf, hlt]
      · simp [initialPair, hs, hf, hlt]

/-- The finished hook always sets status `processing`. -/
theorem finishJob_status (fn : Option String) (j : DownloadStatus) :
    (finishJob fn j).status = Status.processing := by
  cases fn <;> rfl

/-- The finished hook does not touch `completed_at`. -/
theorem finishJob_completed_at (fn : Option String) (j : DownloadStatus) :
    (finishJob fn j).completed_at = j.completed_at := by
  cases fn <;> rfl

end OurTube

namespace OurTube

/-- Every step of the orchestration preserves the global invariant. -/
theorem inv_step {N : Nat} {s t : GState} (hinv : Inv N s) (hstep : Step N s t) :
    Inv N t := by
  obtain ⟨hheld, hmem⟩ := hinv
  cases hstep with
  | create s req id tm =>
    have hsnd := initialPair_snd req tm
    constructor
    · by_cases hp : (initialPair req tm).2 = Status.scheduled
      · rw [heldSlots_cons]
        simpa [initJobState, hp] using hheld
      · rw [heldSlots_cons]
        simpa [initJobState, hp] using hheld
    · intro x hx
      rcases Multiset.mem_cons.mp hx with rfl | hx
      · by_cases hp : (initialPair req tm).2 = Status.scheduled
        · exact ⟨by simp [PhaseInv, initJobState, initJob, hp],
                 by simp [StatInv, initJobState, initJob, hp],
                 by simp [CompInv, initJobState, initJob, hp]⟩
        · rcases hsnd with hq | hq
          · exact ⟨by simp [PhaseInv, initJobState, initJob, hp, hq],
                   by simp [StatInv, initJobState, initJob, hq],
                   by simp [CompInv, initJobState, initJob, hq]⟩
          · exact absurd hq hp
      · exact hmem x hx
  | scheduleFire rest a hph hst =>
    obtain ⟨hpI, hsI, hcI⟩ := hmem a (Multiset.mem_cons_self a rest)
    constructor
    · rw [heldSlots_cons] at hheld ⊢
      simp only [hph] at hheld
      simpa using (by simpa using hheld : heldSlots rest ≤ N)
    · intro x hx
      rcases Multiset.mem_cons.mp hx with rfl | hx
      · have hne : a.job.status ≠ Status.completed := by simp [hst]
        have hnone := compinv_none hcI hne
        exact ⟨by simp [PhaseInv], by simp [StatInv], by simp [CompInv, hnone]⟩
      · exact hmem x (Multiset.mem_cons_of_mem hx)
  | scheduleStale rest a hph hst =>
    obtain ⟨hpI, hsI, hcI⟩ := hmem a (Multiset.mem_cons_self a rest)
    have hsch := hpI.1 hph
    constructor
    · rw [heldSlots_cons] at hheld ⊢
      simp only [hph] at hheld
      simpa using (by simpa using hheld : heldSlots rest ≤ N)
    · intro x hx
      rcases Multiset.mem_cons.mp hx with rfl | hx
      · exact ⟨by simp [PhaseInv], by simp [StatInv, hsch], hcI⟩
      · exact hmem x (Multiset.mem_cons_of_mem hx)
  | startRun rest a hph hst hslot =>
    obtain ⟨hpI, hsI, hcI⟩ := hmem a (Multiset.mem_cons_self a rest)
    constructor
    · rw [heldSlots_cons] at hslot ⊢
      simp only [hph] at hslot
      simp only []
      have h1 : heldSlots rest < N := by simpa using hslot
      simp
      omega
    · intro x hx
      rcases Multiset.mem_cons.mp hx with rfl | hx
      · have hne : a.job.status ≠ Status.completed := by
          rcases hpI.2.1 hph with h | h | h <;> simp [h]
        have hnone := compinv_none hcI hne
        exact ⟨by simp [PhaseInv, startJob],
               by simp [StatInv, startJob],
               by simp [CompInv, startJob, hnone]⟩
      · exact hmem x (Multiset.mem_cons_of_mem hx)
  | startCancelled rest a hph hst =>
    obtain ⟨hpI, hsI, hcI⟩ := hmem a (Multiset.mem_cons_self a rest)
    constructor
    · rw [heldSlots_cons] at hheld ⊢
      simp only [hph] at hheld
      simpa using (by simpa using hheld : heldSlots rest ≤ N)
    · intro x hx
      rcases Multiset.mem_cons.mp hx with rfl | hx
      · exact ⟨by simp [PhaseInv], by simp [StatInv, hst], hcI⟩
      · exact hmem x (Multiset.mem_cons_of_mem hx)
  | progressHook rest a d sp et hph hst =>
    obtain ⟨hpI, hsI, hcI⟩ := hmem a (Multiset.mem_cons_self a rest)
    constructor
    · rw [heldSlots_cons] at hheld ⊢
      simpa using hheld
    · intro x hx
      rcases Multiset.mem_cons.mp hx with rfl | hx
      · have hs3 := hpI.2.2.1 hph
        refine ⟨?_, ?_, ?_⟩
        · refine ⟨fun h => ?_, fun h => ?_, fun _ => ?_, fun h => ?_⟩
          · rw [show ({ a with job := progressJob d sp et a.job } : JobState).phase
                = a.phase from rfl, hph] at h
            exact Phase.noConfusion h
          · rw [show ({ a with job := progressJob d sp et a.job } : JobState).phase
                = a.phase from rfl, hph] at h
            exact Phase.noConfusion h
          · simpa [progressJob] using hs3
          · rw [show ({ a with job := progressJob d sp et a.job } : JobState).phase
                = a.phase from rfl, hph] at h
            exact Phase.noConfusion h
        · constructor
          · intro _
            exact hph
          · intro hcon
            rcases hs3 with h | h | h <;> simp [progressJob, h] at hcon
        · simpa [CompInv, progressJob] using hcI
      · exact hmem x (Multiset.mem_cons_of_mem hx)
  | finishedHook rest a fn hph hst =>
    obtain ⟨hpI, hsI, hcI⟩ := hmem a (Multiset.mem_cons_self a rest)
    constructor
    · rw [heldSlots_cons] at hheld ⊢
      simpa using hheld
    · intro x hx
      rcases Multiset.mem_cons.mp hx with rfl | hx
      · have hne : a.job.status ≠ Status.completed := by
          rcases hpI.2.2.1 hph with h | h | h <;> simp [h]
        have hnone := compinv_none hcI hne
        refine ⟨?_, ?_, ?_⟩
        · refine ⟨fun h => ?_, fun h => ?_, fun _ => ?_, fun h => ?_⟩
          · rw [show ({ a with job := finishJob fn a.job } : JobState).phase
                = a.phase from rfl, hph] at h
            exact Phase.noConfusion h
          · rw [show ({ a with job := finishJob fn a.job } : JobState).phase
                = a.phase from rfl, hph] at h
            exact Phase.noConfusion h
          · exact Or.inr (Or.inl (finishJob_status fn a.job))
          · rw [show ({ a with job := finishJob fn a.job } : JobState).phase
                = a.phase from rfl, hph] at h
            exact Phase.noConfusion h
        · constructor
          · intro _
            exact hph
          · intro hcon
            rw [show ({ a with job := finishJob fn a.job } : JobState).job.status
                = (finishJob fn a.job).status from rfl, finishJob_status] at hcon
            rcases hcon with h | h <;> exact Status.noConfusion h
        · rw [CompInv]
          rw [show ({ a with job := finishJob fn a.job } : JobState).job.completed_at
              = (finishJob fn a.job).completed_at from rfl, finishJob_completed_at,
            hnone,
            show ({ a with job := finishJob fn a.job } : JobState).job.status
              = (finishJob fn a.job).status from rfl, finishJob_status]
          simp
      · exact hmem x (Multiset.mem_cons_of_mem hx)
  | hookCancelRaise rest a hph hst =>
    obtain ⟨hpI, hsI, hcI⟩ := hmem a (Multiset.mem_cons_self a rest)
    constructor
    · rw [heldSlots_cons] at hheld ⊢
      simp only [hph] at hheld
      have h1 : heldSlots rest + 1 ≤ N := by simpa using hheld
      simp
      omega
    · intro x hx
      rcases Multiset.mem_cons.mp hx with rfl | hx
      · have hne : a.job.status ≠ Status.completed := by simp [hst]
        have hnone := compinv_none hcI hne
        exact ⟨by simp [PhaseInv], by simp [StatInv, cancelJob],
               by simp [CompInv, cancelJob, hnone]⟩
      · exact hmem x (Multiset.mem_cons_of_mem hx)
  | completeOk rest a tm hph hst =>
    obtain ⟨hpI, hsI, hcI⟩ := hmem a (Multiset.mem_cons_self a rest)
    constructor
    · rw [heldSlots_cons] at hheld ⊢
      simp only [hph] at hheld
      have h1 : heldSlots rest + 1 ≤ N := by simpa using hheld
      simp
      omega
    · intro x hx
      rcases Multiset.mem_cons.mp hx with rfl | hx
      · exact ⟨by simp [PhaseInv], by simp [StatInv, completeJob],
               by simp [CompInv, completeJob]⟩
      · exact hmem x (Multiset.mem_cons_of_mem hx)
  | completeCancelled rest a hph hst =>
    obtain ⟨hpI, hsI, hcI⟩ := hmem a (Multiset.mem_cons_self a rest)
    constructor
    · rw [heldSlots_cons] at hheld ⊢
      simp only [hph] at hheld
      have h1 : heldSlots rest + 1 ≤ N := by simpa using hheld
      simp
      omega
    · intro x hx
      rcases Multiset.mem_cons.mp hx with rfl | hx
      · exact ⟨by simp [PhaseInv], by simp [StatInv, hst], hcI⟩
      · exact hmem x (Multiset.mem_cons_of_mem hx)
  | failStep rest a err hph =>
    obtain ⟨hpI, hsI, hcI⟩ := hmem a (Multiset.mem_cons_self a rest)
    by_cases hc : a.job.status = Status.cancelled
    · have hout : (handleFailure a.auto_retry err a.job).2 = FailureOutcome.skipped := by
        simp [handleFailure, hc]
      have hjob : (handleFailure a.auto_retry err a.job).1 = a.job := by
        simp [handleFailure, hc]
      have hph2 : phaseAfterFailure (handleFailure a.auto_retry err a.job).2
          = Phase.done := by rw [hout]; rfl
      constructor
      · rw [heldSlots_cons] at hheld ⊢
        simp only [hph] at hheld
        have h1 : heldSlots rest + 1 ≤ N := by simpa using hheld
        simp [hph2]
        omega
      · intro x hx
        rcases Multiset.mem_cons.mp hx with rfl | hx
        · refine ⟨?_, ?_, ?_⟩
          · simp [PhaseInv, hph2]
          · simp [StatInv, hph2, hjob, hc]
          · simpa [CompInv, hjob] using hcI
        · exact hmem x (Multiset.mem_cons_of_mem hx)
    · have hne : a.job.status ≠ Status.completed := by
        rcases hpI.2.2.1 hph with h | h | h <;> simp [h]
      have hnone := compinv_none hcI hne
      by_cases hr : a.auto_retry = some true
          ∧ a.job.retry_count.getD 0 < a.job.max_retries.getD 0
      · have hout : (handleFailure a.auto_retry err a.job).2 = FailureOutcome.retried := by
          simp [handleFailure, hc, hr]
        have hst2 : (handleFailure a.auto_retry err a.job).1.status = Status.retrying := by
          simp [handleFailure, hc, hr]
        have hca2 : (handleFailure a.auto_retry err a.job).1.completed_at
            = a.job.completed_at := by
          simp [handleFailure, hc, hr]
        have hph2 : phaseAfterFailure (handleFailure a.auto_retry err a.job).2
            = Phase.backoff := by rw [hout]; rfl
        constructor
        · rw [heldSlots_cons] at hheld ⊢
          simp only [hph] at hheld
          have h1 : heldSlots rest + 1 ≤ N := by simpa using hheld
          simp [hph2]
          omega
        · intro x hx
          rcases Multiset.mem_cons.mp hx with rfl | hx
          · refine ⟨?_, ?_, ?_⟩
            · simp [PhaseInv, hph2, hst2]
            · simp [StatInv, hph2, hst2]
            · simp [CompInv, hca2, hnone, hst2]
          · exact hmem x (Multiset.mem_cons_of_mem hx)
      · have hout : (handleFailure a.auto_retry err a.job).2
            = FailureOutcome.failedOut := by
          simp only [handleFailure, if_neg hc, if_neg hr]
        have hst2 : (handleFailure a.auto_retry err a.job).1.status = Status.failed := by
          simp only [handleFailure, if_neg hc, if_neg hr]
        have hca2 : (handleFailure a.auto_retry err a.job).1.completed_at
            = a.job.completed_at := by
          simp only [handleFailure, if_neg hc, if_neg hr]
        have hph2 : phaseAfterFailure (handleFailure a.auto_retry err a.job).2
            = Phase.done := by rw [hout]; rfl
        constructor
        · rw [heldSlots_cons] at hheld ⊢
          simp only [hph] at hheld
          have h1 : heldSlots rest + 1 ≤ N := by simpa using hheld
          simp [hph2]
          omega
        · intro x hx
          rcases Multiset.mem_cons.mp hx with rfl | hx
          · refine ⟨?_, ?_, ?_⟩
            · simp [PhaseInv, hph2]
            · simp [StatInv, hph2, hst2]
            · simp [CompInv, hca2, hnone, hst2]
          · exact hmem x (Multiset.mem_cons_of_mem hx)
  | backoffDone rest a hph =>
    obtain ⟨hpI, hsI, hcI⟩ := hmem a (Multiset.mem_cons_self a rest)
    have hret := hpI.2.2.2 hph
    constructor
    · rw [heldSlots_cons] at hheld ⊢
      simp only [hph] at hheld
      have h1 : heldSlots rest + 1 ≤ N := by simpa using hheld
      simp
      omega
    · intro x hx
      rcases Multiset.mem_cons.mp hx with rfl | hx
      · exact ⟨by simp [PhaseInv, hret], by simp [StatInv, hret], hcI⟩
      · exact hmem x (Multiset.mem_cons_of_mem hx)
  | cancelApi rest a hst =>
    obtain ⟨hpI, hsI, hcI⟩ := hmem a (Multiset.mem_cons_self a rest)
    have hns : a.job.status ≠ Status.scheduled := by
      rcases hst with h2 | h2 <;> simp [h2]
    have hnr : a.job.status ≠ Status.retrying := by
      rcases hst with h2 | h2 <;> simp [h2]
    have hne : a.job.status ≠ Status.completed := by
      rcases hst with h2 | h2 <;> simp [h2]
    have hnone := compinv_none hcI hne
    constructor
    · rw [heldSlots_cons] at hheld ⊢
      simpa using hheld
    · intro x hx
      rcases Multiset.mem_cons.mp hx with rfl | hx
      · refine ⟨?_, ?_, ?_⟩
        · exact ⟨fun h => absurd (hpI.1 h) hns,
                 fun _ => Or.inr (Or.inr rfl),
                 fun _ => Or.inr (Or.inr rfl),
                 fun h => absurd (hpI.2.2.2 h) hnr⟩
        · exact ⟨fun hcon => by simp [cancelJob] at hcon,
                 fun hcon => by simp [cancelJob] at hcon⟩
        · simp [CompInv, cancelJob, hnone]
      · exact hmem x (Multiset.mem_cons_of_mem hx)

end OurTube

namespace OurTube

/-- The failure handler never leaves a job `downloading`. -/
theorem handleFailure_status_ne_downloading (ar : Option Bool) (err : String)
    (j : DownloadStatus) :
    (handleFailure ar err j).1.status ≠ Status.downloading := by
  by_cases hc : j.status = Status.cancelled
  · simp [handleFailure, hc]
  · by_cases hr : ar = some true ∧ j.retry_count.getD 0 < j.max_retries.getD 0
    · simp [handleFailure, hc, hr]
    · simp only [handleFailure, if_neg hc, if_neg hr]
      simp

/-- Every reachable state satisfies the invariant. -/
theorem reach_inv {N : Nat} {s : GState} (h : Reach N s) : Inv N s := by
  induction h with
  | init =>
    refine ⟨by simp [heldSlots], ?_⟩
    intro a ha
    exact absurd ha (Multiset.not_mem_zero a)
  | step hr hstep ih => exact inv_step ih hstep

/-- The only step that increases the number of `downloading` jobs is the
semaphore-gated admission, so it requires a free slot. -/
theorem step_downloading_needs_slot {N : Nat} {s t : GState} (hstep : Step N s t)
    (hlt : countDownloading s < countDownloading t) : heldSlots s < N := by
  cases hstep with
  | startRun rest a hph hst hslot => exact hslot
  | create s req id tm =>
    exfalso
    rw [countDownloading_cons] at hlt
    rcases initialPair_snd req tm with h | h <;>
      simp [initJobState, initJob, h] at hlt
  | scheduleFire rest a hph hst =>
    exfalso
    rw [countDownloading_cons, countDownloading_cons] at hlt
    simp [hst] at hlt
  | scheduleStale rest a hph hst =>
    exfalso
    rw [countDownloading_cons, countDownloading_cons] at hlt
    simp at hlt
  | startCancelled rest a hph hst =>
    exfalso
    rw [countDownloading_cons, countDownloading_cons] at hlt
    simp at hlt
  | progressHook rest a d sp et hph hst =>
    exfalso
    rw [countDownloading_cons, countDownloading_cons] at hlt
    simp [progressJob] at hlt
  | finishedHook rest a fn hph hst =>
    exfalso
    rw [countDownloading_cons, countDownloading_cons] at hlt
    rw [show ({ a with job := finishJob fn a.job } : JobState).job.status
        = (finishJob fn a.job).status from rfl, finishJob_status] at hlt
    simp at hlt
  | hookCancelRaise rest a hph hst =>
    exfalso
    rw [countDownloading_cons, countDownloading_cons] at hlt
    simp [cancelJob] at hlt
  | completeOk rest a tm hph hst =>
    exfalso
    rw [countDownloading_cons, countDownloading_cons] at hlt
    simp [completeJob] at hlt
  | completeCancelled rest a hph hst =>
    exfalso
    rw [countDownloading_cons, countDownloading_cons] at hlt
    simp at hlt
  | failStep rest a err hph =>
    exfalso
    rw [countDownloading_cons, countDownloading_cons] at hlt
    rw [if_neg (handleFailure_status_ne_downloading a.auto_retry err a.job)] at hlt
    simp at hlt
  | backoffDone rest a hph =>
    exfalso
    rw [countDownloading_cons, countDownloading_cons] at hlt
    simp at hlt
  | cancelApi rest a hst =>
    exfalso
    rw [countDownloading_cons, countDownloading_cons] at hlt
    simp [cancelJob] at hlt

/-- C2 (amended): in every reachable state, at most `N` jobs are
simultaneously `downloading`/`processing`; a job moves from `queued` to
`downloading` only by the semaphore-gated admission, i.e. only when one
of the `N` slots is free; the slot is released when the coroutine ends —
immediately after a terminal transition, but only after the 5-second
backoff for a `retrying` transition, during which the retrying job still
occupies its slot (jobs in the backoff all have status `retrying`). -/
theorem c2_concurrency_bound (N : Nat) (s : GState) (hr : Reach N s) :
    countDownProc s ≤ N ∧
    countDownProc s ≤ heldSlots s ∧
    heldSlots s ≤ N ∧
    (∀ t, Step N s t → countDownloading s < countDownloading t → heldSlots s < N) ∧
    (∀ a ∈ s, a.phase = Phase.backoff → a.job.status = Status.retrying) := by
  obtain ⟨hheld, hmem⟩ := reach_inv hr
  have hcnt : countDownProc s ≤ heldSlots s := by
    rw [countDownProc, heldSlots]
    apply countP_le_of_imp
    intro a ha hdp
    exact Or.inl ((hmem a ha).2.1.1 hdp)
  refine ⟨le_trans hcnt hheld, hcnt, hheld, ?_, ?_⟩
  · intro t hstep hlt
    exact step_downloading_needs_slot hstep hlt
  · intro a ha hb
    exact (hmem a ha).1.2.2.2 hb

end OurTube

namespace OurTube

/-- Freshly created job with slot bound 1, before admission. -/
def js1 : JobState := initJobState reqPlain "a1" 0

/-- The same job admitted into the semaphore body (`downloading`). -/
def js2 : JobState := { js1 with job := startJob js1.job, phase := Phase.started }

/-- The same job after an execution failure handled as a retry: status
`retrying`, coroutine sleeping in the backoff with the slot still held. -/
def js3 : JobState :=
  { js2 with job := (handleFailure js2.auto_retry "boom" js2.job).1,
             phase := phaseAfterFailure (handleFailure js2.auto_retry "boom" js2.job).2 }

/-- One-job state after the retry decision, under bound `N = 1`. -/
def gs3 : GState := js3 ::ₘ 0

/-- The creation step is reachable. -/
theorem reach_gs1 : Reach 1 (js1 ::ₘ 0) :=
  Reach.step Reach.init (Step.create 0 reqPlain "a1" 0)

/-- Admission of the fresh job is reachable. -/
theorem reach_gs2 : Reach 1 (js2 ::ₘ 0) :=
  Reach.step reach_gs1 (Step.startRun 0 js1 (by decide) (by decide) (by decide))

/-- The post-failure retry state is reachable. -/
theorem reach_gs3 : Reach 1 gs3 :=
  Reach.step reach_gs2 (Step.failStep 0 js2 "boom" (by decide))

/-- Counterexample to C2: in the reachable state `gs3` (bound `N = 1`)
the job has left `downloading` for `retrying`, yet its semaphore slot is
still held through the 5-second backoff sleep — one slot is held while
zero jobs are `downloading`/`processing`, so slots are not released at
the moment a job leaves `downloading` for `retrying` as the claim
states. -/
theorem c2_backoff_holds_slot_counterexample :
    Reach 1 gs3 ∧
    heldSlots gs3 = 1 ∧
    countDownProc gs3 = 0 ∧
    js3 ∈ gs3 ∧ js3.job.status = Status.retrying ∧ js3.phase = Phase.backoff ∧
    heldSlots gs3 ≠ countDownProc gs3 :=
  ⟨reach_gs3, by decide, by decide, by decide, by decide, by decide, by decide⟩

/-- Witness for C2 (amended) at the concrete reachable state `gs3`. -/
theorem c2_concurrency_bound_witness :
    countDownProc gs3 ≤ 1 ∧ heldSlots gs3 ≤ 1 := by
  have h := c2_concurrency_bound 1 gs3 reach_gs3
  exact ⟨h.1, h.2.2.1⟩

/-- Request with `auto_retry` off. -/
def reqNoRetry : DownloadRequest :=
  { url := "u", scheduled_time := none, auto_retry := some false, max_retries := some 3 }

/-- Fresh no-retry job. -/
def jf1 : JobState := initJobState reqNoRetry "b1" 0

/-- The no-retry job admitted (`downloading`). -/
def jf2 : JobState := { jf1 with job := startJob jf1.job, phase := Phase.started }

/-- The no-retry job after a failed execution: status `failed`. -/
def jf3 : JobState :=
  { jf2 with job := (handleFailure jf2.auto_retry "boom" jf2.job).1,
             phase := phaseAfterFailure (handleFailure jf2.auto_retry "boom" jf2.job).2 }

/-- One-job state holding a failed job, under bound `N = 3`. -/
def gf3 : GState := jf3 ::ₘ 0

/-- Creation of the no-retry job is reachable. -/
theorem reach_gf1 : Reach 3 (jf1 ::ₘ 0) :=
  Reach.step Reach.init (Step.create 0 reqNoRetry "b1" 0)

/-- Admission of the no-retry job is reachable. -/
theorem reach_gf2 : Reach 3 (jf2 ::ₘ 0) :=
  Reach.step reach_gf1 (Step.startRun 0 jf1 (by decide) (by decide) (by decide))

/-- The failed terminal state is reachable. -/
theorem reach_gf3 : Reach 3 gf3 :=
  Reach.step reach_gf2 (Step.failStep 0 jf2 "boom" (by decide))

/-- Counterexample to C5: in the reachable state `gf3` the job has
transitioned to `failed`, yet its `completed_at` is still null — the
failure path of `process_download` never sets `completed_at`, so the
claimed biconditional with the terminal statuses fails. -/
theorem c5_completed_at_counterexample :
    Reach 3 gf3 ∧ jf3 ∈ gf3 ∧ jf3.job.status = Status.failed ∧
    jf3.job.completed_at = none ∧
    ¬ (jf3.job.completed_at ≠ none ↔
        (jf3.job.status = Status.completed ∨ jf3.job.status = Status.failed ∨
         jf3.job.status = Status.cancelled)) :=
  ⟨reach_gf3, by decide, by decide, by decide, by decide⟩

/-- C5 (amended): in every reachable state, `completed_at` is non-null
iff the job's status is `completed` — transitions into `failed` and
`cancelled` leave `completed_at` null, and no non-completed job ever has
it set. -/
theorem c5_completed_at_iff_completed (N : Nat) (s : GState) (hr : Reach N s) :
    ∀ a ∈ s, (a.job.completed_at ≠ none ↔ a.job.status = Status.completed) := by
  intro a ha
  exact ((reach_inv hr).2 a ha).2.2

/-- Witness for C5 (amended) at the concrete reachable failed job. -/
theorem c5_completed_at_iff_completed_witness :
    jf3.job.completed_at ≠ none ↔ jf3.job.status = Status.completed :=
  c5_completed_at_iff_completed 3 gf3 reach_gf3 jf3 (by decide)

end OurTube
